import Mathlib

/-!
Verification of the numeric core of `nionswift_plugin/nion_experimental_4dtools/Map4D.py`.

The only non-glue logic of the repository is `Map4D.execute`: given a 4D source
array of shape (R, C, H, W) and a sequence of 2D boolean region masks over the
trailing (H, W) axes, it flattens the trailing two axes (numpy row-major), ORs
the masks together, and sums the source over the selected flat indices — or over
all of them when the combined mask has no true entry.

We embed the array values as functions out of `Fin` types.  The numpy row-major
reshape of the trailing axes is embedded explicitly: flat index `i : Fin (H*W)`
corresponds to the pair `(i / W, i % W)`, i.e. `(i.divNat, i.modNat)`.

A second, allocation-observing rendering (`Store`, `executeAlloc`, `map_4D`)
makes buffer allocation explicit so that frame conditions (no mutation of the
inputs, freshness of the result, no allocation on the shape-check failure path)
become statable.
-/

namespace Map4D

/-- Embeds lines 68-70 of Map4D.py:
`mask_data = np.zeros(src_xdata.data_shape[2:], dtype=bool)` followed by
`for region in map_regions: mask_data = np.logical_or(mask_data, region.get_mask(...))`.
Each region is represented by the boolean mask its `get_mask` returns for shape (H, W). -/
def combinedMask (H W : Nat) (map_regions : List (Fin H → Fin W → Bool)) :
    Fin H → Fin W → Bool :=
  map_regions.foldl (fun mask_data region => fun h w => mask_data h w || region h w)
    (fun _ _ => false)

/-- Embeds line 66 of Map4D.py:
`data = np.reshape(src_xdata.data, src_xdata.data_shape[:2] + (-1,))`.
numpy arrays are row-major, so the flat index `i` of the trailing axis of the
reshaped view corresponds to collection-plane position `(i / W, i % W)`. -/
def reshapeFlat {R C H W : Nat} (src : Fin R → Fin C → Fin H → Fin W → Int) :
    Fin R → Fin C → Fin (H * W) → Int :=
  fun r c i => src r c i.divNat i.modNat

/-- Embeds line 72 of Map4D.py: `ind = np.arange(mask_data.size)[mask_data.ravel()]`.
`ravel` of the row-major (H, W) mask at flat index `i` is the mask at `(i / W, i % W)`. -/
def maskedIndices {H W : Nat} (mask_data : Fin H → Fin W → Bool) : List (Fin (H * W)) :=
  (List.finRange (H * W)).filter fun i => mask_data i.divNat i.modNat

/-- Embeds the numeric body of `Map4D.execute` (lines 66-78 of Map4D.py):
reshape, combined mask, then either the masked sum `np.sum(data[..., ind], axis=(-1))`
when `mask_data.any()`, or the full sum `np.sum(data, axis=-1)` otherwise. -/
def execute {R C H W : Nat} (src : Fin R → Fin C → Fin H → Fin W → Int)
    (map_regions : List (Fin H → Fin W → Bool)) : Fin R → Fin C → Int :=
  let data := reshapeFlat src
  let mask_data := combinedMask H W map_regions
  if ∃ h w, mask_data h w = true then
    fun r c => ((maskedIndices mask_data).map fun i => data r c i).sum
  else
    fun r c => ((List.finRange (H * W)).map fun i => data r c i).sum

/-- A calibration record (scale, offset, unit) as attached to axes and intensity. -/
structure Calibration where
  offset : Int
  scale : Int
  units : String
deriving DecidableEq

/-- The extended-data view of the 4D source: array plus per-axis dimensional
calibrations plus intensity calibration (`src_xdata` in Map4D.py). -/
structure XData4D (R C H W : Nat) where
  data : Fin R → Fin C → Fin H → Fin W → Int
  dimensional_calibrations : List Calibration
  intensity_calibration : Calibration

/-- The extended-data view of the 2D result. -/
structure XData2D (R C : Nat) where
  data : Fin R → Fin C → Int
  dimensional_calibrations : List Calibration
  intensity_calibration : Calibration

/-- Modelled from the spec: copying a calibration record by value ("Calibration
values are copied by value, not shared by reference, from source to result").
The copy rebuilds the record field by field. -/
def Calibration.copy (c : Calibration) : Calibration :=
  { offset := c.offset, scale := c.scale, units := c.units }

/-- Modelled from the spec: `DataAndMetadata.new_data_and_metadata` is host-library
code (`nion.data.DataAndMetadata`, not part of this repository).  Per the spec it
attaches the supplied dimensional and intensity calibrations to the fresh data,
copying the calibration values. -/
def new_data_and_metadata {R C : Nat} (data : Fin R → Fin C → Int)
    (dimensional_calibrations : List Calibration)
    (intensity_calibration : Calibration) : XData2D R C :=
  { data := data
    dimensional_calibrations := dimensional_calibrations.map Calibration.copy
    intensity_calibration := intensity_calibration.copy }

/-- Embeds lines 66-81 of Map4D.py at the xdata level: compute the reduced data and
attach `src_xdata.dimensional_calibrations[:2]` and `src_xdata.intensity_calibration`. -/
def executeXData {R C H W : Nat} (src_xdata : XData4D R C H W)
    (map_regions : List (Fin H → Fin W → Bool)) : XData2D R C :=
  new_data_and_metadata (execute src_xdata.data map_regions)
    (src_xdata.dimensional_calibrations.take 2) src_xdata.intensity_calibration

/-- The mutable state of a `Map4D` computation object: the private field
`self.__new_xdata` written by `execute` and read by `commit`. -/
structure Map4DState (R C : Nat) where
  new_xdata : Option (XData2D R C)

/-- `Map4D.execute` as a state transformer on the computation object:
`self.__new_xdata = DataAndMetadata.new_data_and_metadata(new_data, ...)` (line 79). -/
def executeS {R C H W : Nat} (self : Map4DState R C) (src_xdata : XData4D R C H W)
    (map_regions : List (Fin H → Fin W → Bool)) : Map4DState R C :=
  { self with new_xdata := some (executeXData src_xdata map_regions) }

/-- `Map4D.commit` reads `self.__new_xdata` (line 84). -/
def commit {R C : Nat} (self : Map4DState R C) : Option (XData2D R C) :=
  self.new_xdata

/-- The `Facade.DataSource` argument of `execute`: its `xdata` property may be absent. -/
structure DataSource (R C H W : Nat) where
  xdata : Option (XData4D R C H W)

/-- Embeds the full entry of `Map4D.execute` (lines 61-64 of Map4D.py): both `src`
and `map_regions` default to `None`, and the leading statements
`assert src is not None`, `assert map_regions is not None`, `assert src.xdata`
run, in that order, before any computation on the data. -/
def executeChecked {R C H W : Nat} (src : Option (DataSource R C H W))
    (map_regions : Option (List (Fin H → Fin W → Bool))) :
    Except String (XData2D R C) :=
  match src with
  | none => Except.error "assert src is not None"
  | some s =>
    match map_regions with
    | none => Except.error "assert map_regions is not None"
    | some regions =>
      match s.xdata with
      | none => Except.error "assert src.xdata"
      | some src_xdata => Except.ok (executeXData src_xdata regions)

/-- Allocation-observing model: a heap of numpy buffers.  Each cell is one flat
row-major buffer; booleans are stored as 0/1. -/
structure Store where
  cells : List (List Int)
deriving DecidableEq

/-- Allocate a fresh buffer: append it to the heap, return its reference. -/
def Store.alloc (s : Store) (v : List Int) : Store × Nat :=
  (⟨s.cells ++ [v]⟩, s.cells.length)

/-- Read the buffer behind a reference. -/
def Store.read (s : Store) (r : Nat) : List Int :=
  s.cells.getD r []

/-- `np.logical_or` on flat 0/1 buffers: produces a fresh value, mutates neither input. -/
def orList (a b : List Int) : List Int :=
  List.zipWith (fun x y => if x ≠ 0 ∨ y ≠ 0 then 1 else 0) a b

/-- Allocation-observing rendering of the body of `Map4D.execute` (lines 66-78):
the reshape is a view of the source buffer (no copy, no allocation); the
`np.zeros` mask buffer and each `np.logical_or` result are fresh allocations;
the summed result is a fresh allocation.  Pre-existing cells are only ever read. -/
def executeAlloc (s : Store) (srcRef : Nat) (R C H W : Nat) (maskRefs : List Nat) :
    Store × Nat :=
  -- data = np.reshape(src_xdata.data, src_xdata.data_shape[:2] + (-1,)): a view
  let dataRef := srcRef
  -- mask_data = np.zeros(src_xdata.data_shape[2:], dtype=bool)
  let alloc0 := s.alloc (List.replicate (H * W) 0)
  -- for region in map_regions: mask_data = np.logical_or(mask_data, region.get_mask(...))
  let folded := maskRefs.foldl
    (fun acc rref => acc.1.alloc (orList (acc.1.read acc.2) (acc.1.read rref))) alloc0
  let maskVals := folded.1.read folded.2
  let new_data :=
    if maskVals.any fun x => decide (x ≠ 0) then
      -- ind = np.arange(mask_data.size)[mask_data.ravel()]; np.sum(data[..., ind], -1)
      let ind := (List.range (H * W)).filter fun i => decide (maskVals.getD i 0 ≠ 0)
      (List.range (R * C)).map fun p =>
        (ind.map fun i => (folded.1.read dataRef).getD (p * (H * W) + i) 0).sum
    else
      -- np.sum(data, axis=-1)
      (List.range (R * C)).map fun p =>
        ((List.range (H * W)).map fun i =>
          (folded.1.read dataRef).getD (p * (H * W) + i) 0).sum
  folded.1.alloc new_data

end Map4D

/-- Embeds the shape validation of `map_4D` (lines 147-148 of Map4D.py):
`if not data_item.xdata or not data_item.xdata.is_data_4d: raise ValueError("Data item must be 4D.")`,
sequenced before the computation whose `execute` allocates the mask buffer.
On failure the store is returned untouched: nothing was allocated. -/
def map_4D (s : Map4D.Store) (srcRef : Nat) (shape : List Nat) (maskRefs : List Nat) :
    Map4D.Store × Except String Nat :=
  match shape with
  | [R, C, H, W] =>
    let result := Map4D.executeAlloc s srcRef R C H W maskRefs
    (result.1, Except.ok result.2)
  | _ => (s, Except.error "Data item must be 4D.")

/-- Concrete (2,2,2,2) source filled with 0..15 in row-major order. -/
def srcEx : Fin 2 → Fin 2 → Fin 2 → Fin 2 → Int :=
  fun r c h w => (((r.val * 2 + c.val) * 2 + h.val) * 2 + w.val : Nat)

/-- Concrete mask selecting exactly the collection-plane pixel (0, 0). -/
def mEx : Fin 2 → Fin 2 → Bool :=
  fun h w => decide (h = 0) && decide (w = 0)

/-- Concrete mask selecting exactly the collection-plane pixel (1, 1). -/
def mEx2 : Fin 2 → Fin 2 → Bool :=
  fun h w => decide (h = 1) && decide (w = 1)

/-- Concrete mask selecting nothing. -/
def mFalse : Fin 2 → Fin 2 → Bool :=
  fun _ _ => false

/-- Concrete calibrations. -/
def calEx0 : Map4D.Calibration := ⟨0, 1, "nm"⟩

def calEx1 : Map4D.Calibration := ⟨2, 3, "nm"⟩

def calEx2 : Map4D.Calibration := ⟨4, 5, "rad"⟩

def calEx3 : Map4D.Calibration := ⟨6, 7, "rad"⟩

def calExI : Map4D.Calibration := ⟨0, 1, "counts"⟩

/-- Concrete 4D xdata. -/
def xdataEx : Map4D.XData4D 2 2 2 2 :=
  ⟨srcEx, [calEx0, calEx1, calEx2, calEx3], calExI⟩

/-- Concrete data source wrapping `xdataEx`. -/
def dsEx : Map4D.DataSource 2 2 2 2 :=
  ⟨some xdataEx⟩

/-- Concrete heap: cell 0 is a (1,1,2,2) source buffer, cell 1 is a mask buffer. -/
def storeEx : Map4D.Store :=
  ⟨[[0, 1, 2, 3, 4, 5, 6, 7, 8, 9, 10, 11, 12, 13, 14, 15], [1, 0, 0, 0]]⟩

namespace Map4D

/-- Pointwise value of the OR-fold that builds the combined mask. -/
lemma foldl_or_apply {H W : Nat} (l : List (Fin H → Fin W → Bool))
    (acc : Fin H → Fin W → Bool) (h : Fin H) (w : Fin W) :
    (l.foldl (fun mask_data region => fun h w => mask_data h w || region h w) acc) h w =
      (acc h w || l.any fun m => m h w) := by
  induction l generalizing acc with
  | nil => simp
  | cons m t ih =>
      simp only [List.foldl_cons, List.any_cons]
      rw [ih]
      simp [Bool.or_assoc]

lemma combinedMask_apply {H W : Nat} (l : List (Fin H → Fin W → Bool))
    (h : Fin H) (w : Fin W) :
    combinedMask H W l h w = l.any fun m => m h w := by
  simpa using foldl_or_apply l (fun _ _ => false) h w

lemma combinedMask_nil {H W : Nat} (h : Fin H) (w : Fin W) :
    combinedMask H W [] h w = false := rfl

/-- Summing a mapped filter equals summing the if-masked values. -/
lemma sum_map_filter_eq {α : Type} (l : List α) (p : α → Bool) (f : α → Int) :
    ((l.filter p).map f).sum = (l.map fun i => if p i = true then f i else 0).sum := by
  induction l with
  | nil => rfl
  | cons a t ih =>
      by_cases hp : p a = true <;>
        simp [List.filter_cons, hp, ih]

/-- The masked branch of `execute` computes, at each scan position, the sum of the
source over exactly the collection-plane positions selected by the combined mask. -/
lemma execute_of_any {R C H W : Nat} (src : Fin R → Fin C → Fin H → Fin W → Int)
    (map_regions : List (Fin H → Fin W → Bool))
    (hmask : ∃ h w, combinedMask H W map_regions h w = true) (r : Fin R) (c : Fin C) :
    execute src map_regions r c =
      ∑ x ∈ Finset.univ.filter
        (fun x : Fin H × Fin W => combinedMask H W map_regions x.1 x.2 = true),
        src r c x.1 x.2 := by
  simp only [execute]
  rw [if_pos hmask]
  rw [maskedIndices, sum_map_filter_eq, ← Fin.sum_univ_def]
  rw [Fintype.sum_equiv finProdFinEquiv.symm _
    (fun x : Fin H × Fin W =>
      if combinedMask H W map_regions x.1 x.2 = true then src r c x.1 x.2 else 0)
    (fun i => by simp [reshapeFlat, finProdFinEquiv])]
  rw [← Finset.sum_filter]

/-- The unmasked branch of `execute` computes the full-frame sum. -/
lemma execute_of_none {R C H W : Nat} (src : Fin R → Fin C → Fin H → Fin W → Int)
    (map_regions : List (Fin H → Fin W → Bool))
    (hmask : ∀ h w, combinedMask H W map_regions h w = false) (r : Fin R) (c : Fin C) :
    execute src map_regions r c = ∑ h : Fin H, ∑ w : Fin W, src r c h w := by
  simp only [execute]
  rw [if_neg (by rintro ⟨h, w, hw⟩; rw [hmask h w] at hw; exact Bool.false_ne_true hw)]
  rw [← Fin.sum_univ_def]
  rw [Fintype.sum_equiv finProdFinEquiv.symm _
    (fun x : Fin H × Fin W => src r c x.1 x.2)
    (fun i => by simp [reshapeFlat, finProdFinEquiv])]
  rw [Fintype.sum_prod_type]

/-- `execute` depends on the mask list only through the combined mask. -/
lemma execute_congr {R C H W : Nat} (src : Fin R → Fin C → Fin H → Fin W → Int)
    (l1 l2 : List (Fin H → Fin W → Bool))
    (hcomb : combinedMask H W l1 = combinedMask H W l2) :
    execute src l1 = execute src l2 := by
  have h2 : (∃ h w, combinedMask H W l1 h w = true) ↔
      (∃ h w, combinedMask H W l2 h w = true) := by rw [hcomb]
  simp only [execute]
  by_cases hc : ∃ h w, combinedMask H W l1 h w = true
  · rw [if_pos hc, if_pos (h2.mp hc), hcomb]
  · rw [if_neg hc, if_neg fun hx => hc (h2.mpr hx)]

/-- The fold of allocations only appends cells to the heap. -/
lemma foldl_alloc_extends (l : List Nat) (acc : Store × Nat) :
    ∃ t, (l.foldl
      (fun acc rref => acc.1.alloc (orList (acc.1.read acc.2) (acc.1.read rref)))
      acc).1.cells = acc.1.cells ++ t := by
  induction l generalizing acc with
  | nil => exact ⟨[], by simp⟩
  | cons r t ih =>
      obtain ⟨tl, htl⟩ :=
        ih (acc.1.alloc (orList (acc.1.read acc.2) (acc.1.read r)))
      refine ⟨orList (acc.1.read acc.2) (acc.1.read r) :: tl, ?_⟩
      rw [List.foldl_cons, htl]
      simp [Store.alloc]

lemma alloc_fst_cells (x : Store) (v : List Int) : (x.alloc v).1.cells = x.cells ++ [v] :=
  rfl

lemma alloc_snd (x : Store) (v : List Int) : (x.alloc v).2 = x.cells.length :=
  rfl

/-- Allocating on an extension of `s` still yields an extension of `s`. -/
lemma exists_append_alloc (s x : Store) (v : List Int)
    (h : ∃ u, x.cells = s.cells ++ u) :
    ∃ t, (x.alloc v).1.cells = s.cells ++ t := by
  obtain ⟨u, hu⟩ := h
  exact ⟨u ++ [v], by rw [alloc_fst_cells, hu, List.append_assoc]⟩

/-- `executeAlloc` only appends cells, and the returned reference is fresh. -/
lemma executeAlloc_spec (s : Store) (srcRef R C H W : Nat) (maskRefs : List Nat) :
    (∃ t, (executeAlloc s srcRef R C H W maskRefs).1.cells = s.cells ++ t) ∧
    s.cells.length < (executeAlloc s srcRef R C H W maskRefs).2 := by
  obtain ⟨t0, ht0⟩ :=
    foldl_alloc_extends maskRefs (s.alloc (List.replicate (H * W) 0))
  simp only [executeAlloc]
  constructor
  · apply exists_append_alloc
    exact ⟨List.replicate (H * W) 0 :: t0, by rw [ht0, alloc_fst_cells]; simp⟩
  · rw [alloc_snd, ht0, alloc_fst_cells]
    simp only [List.length_append, List.length_singleton]
    omega

end Map4D

/-- C1: For every 4D source of shape (R, C, H, W) and every non-empty mask list whose
combined OR mask has at least one true entry, `execute` returns at each (r, c) the sum
of the source over exactly the collection positions (h, w) where the combined mask is
true, the trailing two axes being flattened row-major: flat index h*W + w is (h, w). -/
theorem c1_masked_reduce {R C H W : Nat} (src : Fin R → Fin C → Fin H → Fin W → Int)
    (map_regions : List (Fin H → Fin W → Bool)) (hne : map_regions ≠ [])
    (hmask : ∃ h w, Map4D.combinedMask H W map_regions h w = true) :
    (∀ r c, Map4D.execute src map_regions r c =
      ∑ x ∈ Finset.univ.filter
        (fun x : Fin H × Fin W => Map4D.combinedMask H W map_regions x.1 x.2 = true),
        src r c x.1 x.2) ∧
    (∀ (r : Fin R) (c : Fin C) (h : Fin H) (w : Fin W)
      (hlt : h.val * W + w.val < H * W),
      Map4D.reshapeFlat src r c ⟨h.val * W + w.val, hlt⟩ = src r c h w) := by
  refine ⟨fun r c => Map4D.execute_of_any src map_regions hmask r c, ?_⟩
  intro r c h w hlt
  have hW : 0 < W := w.pos
  have hdiv : (⟨h.val * W + w.val, hlt⟩ : Fin (H * W)).divNat = h := by
    apply Fin.ext
    simp only [Fin.coe_divNat]
    rw [Nat.mul_comm h.val W, Nat.mul_add_div hW, Nat.div_eq_of_lt w.isLt, Nat.add_zero]
  have hmod : (⟨h.val * W + w.val, hlt⟩ : Fin (H * W)).modNat = w := by
    apply Fin.ext
    simp only [Fin.coe_modNat]
    rw [Nat.mul_comm h.val W, Nat.mul_add_mod, Nat.mod_eq_of_lt w.isLt]
  show src r c _ _ = src r c h w
  rw [hdiv, hmod]

theorem c1_witness :
    ([mEx] ≠ ([] : List (Fin 2 → Fin 2 → Bool))) ∧
    (∃ h w, Map4D.combinedMask 2 2 [mEx] h w = true) ∧
    Map4D.execute srcEx [mEx] 0 0 =
      ∑ x ∈ Finset.univ.filter
        (fun x : Fin 2 × Fin 2 => Map4D.combinedMask 2 2 [mEx] x.1 x.2 = true),
        srcEx 0 0 x.1 x.2 :=
  ⟨by simp, by decide, (c1_masked_reduce srcEx [mEx] (by simp) (by decide)).1 0 0⟩

/-- C2: For every 4D source and the empty mask list, `execute` returns at each (r, c)
the sum over all H·W elements of the (r, c) frame: the full-frame sum. -/
theorem c2_empty_full_sum {R C H W : Nat} (src : Fin R → Fin C → Fin H → Fin W → Int)
    (r : Fin R) (c : Fin C) :
    Map4D.execute src [] r c = ∑ h : Fin H, ∑ w : Fin W, src r c h w :=
  Map4D.execute_of_none src [] (fun _ _ => rfl) r c

/-- C3: For every 4D source and every non-empty mask list whose combined OR is
all-false, `execute` returns exactly the empty-mask-list result (full-frame sum). -/
theorem c3_all_false_fallback {R C H W : Nat} (src : Fin R → Fin C → Fin H → Fin W → Int)
    (map_regions : List (Fin H → Fin W → Bool)) (hne : map_regions ≠ [])
    (hmask : ∀ h w, Map4D.combinedMask H W map_regions h w = false) :
    Map4D.execute src map_regions = Map4D.execute src [] := by
  funext r c
  rw [Map4D.execute_of_none src map_regions hmask r c,
    Map4D.execute_of_none src [] (fun _ _ => rfl) r c]

theorem c3_witness : Map4D.execute srcEx [mFalse] = Map4D.execute srcEx [] :=
  c3_all_false_fallback srcEx [mFalse] (by simp) (by decide)

/-- C5: For every 4D source and a single mask selecting exactly the pixel (h0, w0),
`execute` returns src[r, c, h0, w0] at every (r, c). -/
theorem c5_single_pixel {R C H W : Nat} (src : Fin R → Fin C → Fin H → Fin W → Int)
    (m : Fin H → Fin W → Bool) (h0 : Fin H) (w0 : Fin W)
    (hm : ∀ h w, m h w = (decide (h = h0) && decide (w = w0)))
    (r : Fin R) (c : Fin C) :
    Map4D.execute src [m] r c = src r c h0 w0 := by
  have hcomb : ∀ h w, Map4D.combinedMask H W [m] h w = m h w := by
    intro h w
    rw [Map4D.combinedMask_apply]
    simp
  have hmask : ∃ h w, Map4D.combinedMask H W [m] h w = true :=
    ⟨h0, w0, by rw [hcomb, hm]; simp⟩
  rw [Map4D.execute_of_any src [m] hmask r c]
  have hset : Finset.univ.filter
      (fun x : Fin H × Fin W => Map4D.combinedMask H W [m] x.1 x.2 = true) =
      {(h0, w0)} := by
    ext x
    simp [hcomb, hm, Prod.ext_iff]
  rw [hset, Finset.sum_singleton]

theorem c5_witness :
    (∀ h w, mEx h w = (decide (h = (0 : Fin 2)) && decide (w = (0 : Fin 2)))) ∧
    Map4D.execute srcEx [mEx] 0 0 = 0 ∧
    Map4D.execute srcEx [mEx] 0 1 = 4 ∧
    Map4D.execute srcEx [mEx] 1 0 = 8 ∧
    Map4D.execute srcEx [mEx] 1 1 = 12 :=
  ⟨fun h w => rfl,
    (c5_single_pixel srcEx mEx 0 0 (fun h w => rfl) 0 0).trans (by decide),
    (c5_single_pixel srcEx mEx 0 0 (fun h w => rfl) 0 1).trans (by decide),
    (c5_single_pixel srcEx mEx 0 0 (fun h w => rfl) 1 0).trans (by decide),
    (c5_single_pixel srcEx mEx 0 0 (fun h w => rfl) 1 1).trans (by decide)⟩

/-- C6: The result's dimensional calibrations are the source's first two dimensional
calibrations and its intensity calibration is the source's intensity calibration,
attached through the by-value `Calibration.copy` of `new_data_and_metadata`. -/
theorem c6_calibration_pass_through {R C H W : Nat} (src_xdata : Map4D.XData4D R C H W)
    (map_regions : List (Fin H → Fin W → Bool)) :
    (Map4D.executeXData src_xdata map_regions).dimensional_calibrations =
      src_xdata.dimensional_calibrations.take 2 ∧
    (Map4D.executeXData src_xdata map_regions).intensity_calibration =
      src_xdata.intensity_calibration := by
  constructor
  · show (src_xdata.dimensional_calibrations.take 2).map Map4D.Calibration.copy =
      src_xdata.dimensional_calibrations.take 2
    rw [show Map4D.Calibration.copy = id from rfl, List.map_id]
  · rfl

/-- C7: `execute` is deterministic and has no hidden state: from any two prior object
states, identical inputs produce identical committed results, namely the pure
`executeXData` of the inputs. -/
theorem c7_deterministic {R C H W : Nat} (st1 st2 : Map4D.Map4DState R C)
    (src_xdata : Map4D.XData4D R C H W)
    (map_regions : List (Fin H → Fin W → Bool)) :
    Map4D.executeS st1 src_xdata map_regions = Map4D.executeS st2 src_xdata map_regions ∧
    Map4D.commit (Map4D.executeS st1 src_xdata map_regions) =
      some (Map4D.executeXData src_xdata map_regions) :=
  ⟨rfl, rfl⟩

/-- C9: `execute` is invariant under permutation and duplication of the mask list:
the combined mask is an OR-fold, which is commutative, associative and idempotent. -/
theorem c9_mask_list_order {R C H W : Nat} (src : Fin R → Fin C → Fin H → Fin W → Int)
    (l1 l2 : List (Fin H → Fin W → Bool)) (m : Fin H → Fin W → Bool)
    (hp : l1.Perm l2) :
    Map4D.execute src l1 = Map4D.execute src l2 ∧
    Map4D.execute src (m :: m :: l1) = Map4D.execute src (m :: l1) := by
  constructor
  · apply Map4D.execute_congr
    funext h w
    rw [Map4D.combinedMask_apply, Map4D.combinedMask_apply]
    have hiff : ((l1.any fun m => m h w) = true) ↔ ((l2.any fun m => m h w) = true) := by
      simp only [List.any_eq_true]
      constructor
      · rintro ⟨x, hx, hpx⟩
        exact ⟨x, hp.mem_iff.mp hx, hpx⟩
      · rintro ⟨x, hx, hpx⟩
        exact ⟨x, hp.mem_iff.mpr hx, hpx⟩
    cases ha : l1.any fun m => m h w <;> cases hb : l2.any fun m => m h w <;> simp_all
  · apply Map4D.execute_congr
    funext h w
    rw [Map4D.combinedMask_apply, Map4D.combinedMask_apply]
    simp only [List.any_cons, ← Bool.or_assoc, Bool.or_self]

theorem c9_witness :
    Map4D.execute srcEx [mEx, mEx2] = Map4D.execute srcEx [mEx2, mEx] ∧
    Map4D.execute srcEx (mEx :: mEx :: [mEx, mEx2]) =
      Map4D.execute srcEx (mEx :: [mEx, mEx2]) :=
  c9_mask_list_order srcEx [mEx, mEx2] [mEx2, mEx] mEx (List.Perm.swap mEx2 mEx [])

/-- C10: Passing None for the source or the mask list fails an assertion before any
computation; `no masks` must be the empty sequence, with which (given `src.xdata`
is present) the operation succeeds. -/
theorem c10_null_asserts {R C H W : Nat}
    (mr : Option (List (Fin H → Fin W → Bool)))
    (s : Map4D.DataSource R C H W) (x : Map4D.XData4D R C H W)
    (hx : s.xdata = some x) (regions : List (Fin H → Fin W → Bool)) :
    Map4D.executeChecked (R := R) (C := C) none mr =
      Except.error "assert src is not None" ∧
    Map4D.executeChecked (some s) none =
      Except.error "assert map_regions is not None" ∧
    Map4D.executeChecked (some s) (some regions) =
      Except.ok (Map4D.executeXData x regions) := by
  obtain ⟨xd⟩ := s
  refine ⟨rfl, rfl, ?_⟩
  cases hx
  rfl

theorem c10_witness :
    Map4D.executeChecked (R := 2) (C := 2) none (some [mEx]) =
      Except.error "assert src is not None" ∧
    Map4D.executeChecked (some dsEx) none =
      Except.error "assert map_regions is not None" ∧
    Map4D.executeChecked (some dsEx) (some []) =
      Except.ok (Map4D.executeXData xdataEx []) :=
  c10_null_asserts (some [mEx]) dsEx xdataEx rfl []

/-- C8: `execute` mutates neither the source buffer nor any region-mask buffer, and
the result buffer is newly allocated, distinct from all input buffers. -/
theorem c8_no_mutation (s : Map4D.Store) (srcRef : Nat) (R C H W : Nat)
    (maskRefs : List Nat) (hsrc : srcRef < s.cells.length)
    (hmasks : ∀ rf ∈ maskRefs, rf < s.cells.length) :
    (Map4D.executeAlloc s srcRef R C H W maskRefs).1.read srcRef = s.read srcRef ∧
    maskRefs.map (Map4D.executeAlloc s srcRef R C H W maskRefs).1.read =
      maskRefs.map s.read ∧
    (Map4D.executeAlloc s srcRef R C H W maskRefs).2 ≠ srcRef ∧
    (Map4D.executeAlloc s srcRef R C H W maskRefs).2 ∉ maskRefs := by
  obtain ⟨⟨t, ht⟩, hlen⟩ := Map4D.executeAlloc_spec s srcRef R C H W maskRefs
  have hread : ∀ i, i < s.cells.length →
      (Map4D.executeAlloc s srcRef R C H W maskRefs).1.read i = s.read i := by
    intro i hi
    simp only [Map4D.Store.read]
    rw [ht]
    exact List.getD_append _ _ _ _ hi
  refine ⟨hread srcRef hsrc, ?_, ?_, ?_⟩
  · exact List.map_congr_left fun rf hrf => hread rf (hmasks rf hrf)
  · omega
  · intro hmem
    exact absurd (hmasks _ hmem) (by omega)

theorem c8_witness :
    (Map4D.executeAlloc storeEx 0 2 2 2 2 [1]).1.read 0 = storeEx.read 0 ∧
    [1].map (Map4D.executeAlloc storeEx 0 2 2 2 2 [1]).1.read = [1].map storeEx.read ∧
    (Map4D.executeAlloc storeEx 0 2 2 2 2 [1]).2 ≠ 0 ∧
    (Map4D.executeAlloc storeEx 0 2 2 2 2 [1]).2 ∉ [1] :=
  c8_no_mutation storeEx 0 2 2 2 2 [1] (by decide) (by decide)

/-- C4: For a source that is not exactly 4-dimensional, the operation fails with the
invalid-shape error and produces no result; the store comes back untouched, so the
failure precedes the allocation of the mask buffer. -/
theorem c4_shape_check (s : Map4D.Store) (srcRef : Nat) (shape : List Nat)
    (maskRefs : List Nat) (hshape : shape.length ≠ 4) :
    map_4D s srcRef shape maskRefs = (s, Except.error "Data item must be 4D.") := by
  rcases shape with _ | ⟨a, _ | ⟨b, _ | ⟨c, _ | ⟨d, _ | ⟨e, t⟩⟩⟩⟩⟩
  · rfl
  · rfl
  · rfl
  · rfl
  · exact absurd rfl hshape
  · rfl

theorem c4_witness :
    map_4D storeEx 0 [2, 2, 4] [1] = (storeEx, Except.error "Data item must be 4D.") :=
  c4_shape_check storeEx 0 [2, 2, 4] [1] (by decide)
